import Mathlib

/-!
Verification model of `packages/rest/src/body-parser.ts` (loopback-next).

The TypeScript module implements request-body resolution: option merging for
the three built-in express parsers (`getParserOptions` plus the constructor's
`Object.assign` calls), a parser registry (extension entries concatenated with
the built-in json/urlencoded/text entries), error normalization
(`normalizeParsingError`), and the orchestrator `loadRequestBodyIfNeeded`.

Modelling conventions:
- JavaScript objects used as option bags are association lists (`JsObj`) read
  through `getProp` (first matching key); `Object.assign` is modelled by its
  key-lookup behaviour (later source wins on present keys).
- The external `type-is` library function `is(mediaType, pattern)` is an
  explicit parameter `isf : String → String → Option String` (`none` models the
  `false` return, `some s` the matched-type string return).
- The external express byte-level parsers (`json()`, `urlencoded()`, `text()`)
  are parameters `Request → Except HttpErr JsVal`; they are out of scope per
  the specification ("treated as a correct external library").
- Thrown errors are `Except.error` carrying an `HttpErr` (statusCode is
  `Option Nat`: `none` models an absent `statusCode` property; the JavaScript
  falsy test `!err.statusCode` is true for both absent and `0`).
- `loadRequestBodyIfNeeded` additionally returns the list of indices of parser
  entries whose `parse` was invoked, so that invocation-count invariants can be
  stated; the first component is exactly the source function's outcome.
-/

namespace LoopbackBodyParser

/-- A JSON-like value: string, boolean, or object. Used for option values,
schemas and parsed body values. -/
inductive JsVal where
  | str (s : String)
  | bool (b : Bool)
  | obj (fields : List (String × JsVal))

/-- A JavaScript object modelled as an association list of own properties. -/
abbrev JsObj := List (String × JsVal)

/-- Property lookup on a JavaScript object (first matching key). -/
def getProp (o : JsObj) (k : String) : Option JsVal :=
  (o.find? (fun p => p.1 == k)).map (fun p => p.2)

/-- The three built-in body formats of the source: json, urlencoded, text. -/
inductive BuiltinFormat where
  | json
  | urlencoded
  | text
deriving DecidableEq

/-- The property key under which each format's sub-options live
(`options[type]` in the source). -/
def BuiltinFormat.key : BuiltinFormat → String
  | .json => "json"
  | .urlencoded => "urlencoded"
  | .text => "text"

/-- Model of `getParserOptions(type, options)` from the source, by key lookup:
`Object.assign(opts, options[type], options)` makes the top-level (shared)
properties win over the format sub-object's properties, and the subsequent
loop deletes the keys `json`, `urlencoded`, `text` from the merged object. -/
def getParserOptions (t : BuiltinFormat) (options : JsObj) (k : String) :
    Option JsVal :=
  if k == "json" || k == "urlencoded" || k == "text" then none
  else
    match getProp options k with
    | some v => some v
    | none =>
      match getProp options t.key with
      | some (.obj sub) => getProp sub k
      | _ => none

/-- The hard-coded defaults passed as the first argument of `Object.assign`
in the constructor: `{type: 'json', limit: '1mb'}`,
`{type: 'urlencoded', extended: true, limit: '1mb'}`,
`{type: 'text/*', limit: '1mb'}` (DEFAULT_LIMIT is the string `1mb`). -/
def formatDefaults : BuiltinFormat → JsObj
  | .json => [("type", .str "json"), ("limit", .str "1mb")]
  | .urlencoded =>
      [("type", .str "urlencoded"), ("extended", .bool true),
       ("limit", .str "1mb")]
  | .text => [("type", .str "text/*"), ("limit", .str "1mb")]

/-- The effective options handed to a built-in express parser:
`Object.assign(defaults, getParserOptions(type, options))`, by key lookup. -/
def effectiveOptions (t : BuiltinFormat) (options : JsObj) (k : String) :
    Option JsVal :=
  match getParserOptions t options k with
  | some v => some v
  | none => getProp (formatDefaults t) k

/-- An HTTP-style error object: optional `statusCode` property plus message. -/
structure HttpErr where
  statusCode : Option Nat
  message : String
deriving DecidableEq

/-- Model of `normalizeParsingError(err)` (defined identically at module level
and as a private method): if `!err.statusCode || err.statusCode >= 500`, set
`statusCode = 400`; return the error. The falsy test holds for an absent
`statusCode` and for `0`. -/
def normalizeParsingError (err : HttpErr) : HttpErr :=
  if err.statusCode.getD 0 == 0 || 500 ≤ err.statusCode.getD 0 then
    { err with statusCode := some 400 }
  else err

/-- The HTTP request as seen by this module: the `content-type` header
(`req.get('content-type')`, absent modelled as `none`). The body stream is
consumed only by the external parse functions. -/
structure Request where
  contentType : Option String

/-- Model of the `RequestBody` result type; `none` in a field models an
absent property, so that `Object.assign` semantics can be stated. -/
structure RequestBody where
  value : Option JsVal
  coercionRequired : Option Bool
  mediaType : Option String
  schema : Option JsVal

/-- The result object created at the start of `loadRequestBodyIfNeeded`:
`{value: undefined}`. -/
def emptyBody : RequestBody :=
  { value := none, coercionRequired := none, mediaType := none, schema := none }

/-- Model of `Object.assign(requestBody, body)`: a property present on `body`
overwrites the one on `requestBody`; an absent property leaves it alone. -/
def mergeBody (target body : RequestBody) : RequestBody :=
  { value := body.value.orElse (fun _ => target.value)
    coercionRequired := body.coercionRequired.orElse
      (fun _ => target.coercionRequired)
    mediaType := body.mediaType.orElse (fun _ => target.mediaType)
    schema := body.schema.orElse (fun _ => target.schema) }

/-- A parser registry entry (the `BodyParser` interface): `supports` may throw
(possible for externally supplied entries), `parse` may throw. -/
structure BodyParser where
  name : Option String
  supports : String → Except HttpErr Bool
  parse : Request → Except HttpErr RequestBody

/-- Model of `parseJsonBody`: run the wrapped express json parser (external,
a parameter here); errors are rejected through `normalizeParsingError` by the
module-level `parse` helper; on success return `{value: request.body}`. -/
def parseJsonBody (jsonP : Request → Except HttpErr JsVal) (req : Request) :
    Except HttpErr RequestBody :=
  match jsonP req with
  | .error e => .error (normalizeParsingError e)
  | .ok v =>
    .ok { value := some v, coercionRequired := none, mediaType := none,
          schema := none }

/-- Model of `parseUrlencodedBody`: like `parseJsonBody` but the success
result is `{value: request.body, coercionRequired: true}`. -/
def parseUrlencodedBody (urlP : Request → Except HttpErr JsVal)
    (req : Request) : Except HttpErr RequestBody :=
  match urlP req with
  | .error e => .error (normalizeParsingError e)
  | .ok v =>
    .ok { value := some v, coercionRequired := some true, mediaType := none,
          schema := none }

/-- Model of `parseTextBody`: like `parseJsonBody`. -/
def parseTextBody (textP : Request → Except HttpErr JsVal) (req : Request) :
    Except HttpErr RequestBody :=
  match textP req with
  | .error e => .error (normalizeParsingError e)
  | .ok v =>
    .ok { value := some v, coercionRequired := none, mediaType := none,
          schema := none }

/-- The three built-in registry entries built in the constructor. Each
`supports` is `mediaType => !!is(mediaType, pattern)` with the fixed patterns
`json`, `urlencoded`, `text/*`; `isf` is the external type-is matcher. -/
def builtinEntries (isf : String → String → Option String)
    (jsonP urlP textP : Request → Except HttpErr JsVal) : List BodyParser :=
  [ { name := some "json",
      supports := fun mediaType => .ok (isf mediaType "json").isSome,
      parse := parseJsonBody jsonP },
    { name := some "urlencoded",
      supports := fun mediaType => .ok (isf mediaType "urlencoded").isSome,
      parse := parseUrlencodedBody urlP },
    { name := some "text",
      supports := fun mediaType => .ok (isf mediaType "text/*").isSome,
      parse := parseTextBody textP } ]

/-- The registry built in the constructor:
`this.parsers = parsers.concat([json, urlencoded, text])`, extension entries
first. -/
def buildParsers (extensions : List BodyParser)
    (isf : String → String → Option String)
    (jsonP urlP textP : Request → Except HttpErr JsVal) : List BodyParser :=
  extensions ++ builtinEntries isf jsonP urlP textP

/-- The slice of an OpenAPI media-type object read by the source:
`content[type].schema` (possibly absent). -/
structure MediaTypeObject where
  schema : Option JsVal

/-- The request-body field of an operation spec: either a `ReferenceObject`
(a `$ref` indirection, detected by `isReferenceObject`) or a body object with
an optional `content` map (association list, iterated in order). -/
inductive RequestBodyOrRef where
  | reference (ref : String)
  | body (content : Option (List (String × MediaTypeObject)))

/-- The slice of `OperationObject` read by the source: the optional
`requestBody`. -/
structure OperationObject where
  requestBody : Option RequestBodyOrRef

/-- The defaulted content map synthesized when the declared content map is
empty: json and urlencoded with schema `{type: 'object'}`. -/
def defaultContent : List (String × MediaTypeObject) :=
  [ ("application/json", { schema := some (.obj [("type", .str "object")]) }),
    ("application/x-www-form-urlencoded",
      { schema := some (.obj [("type", .str "object")]) }) ]

/-- `let content = operationSpec.requestBody.content || {}` followed by the
empty-check that installs the two defaults. -/
def effectiveContent (c : Option (List (String × MediaTypeObject))) :
    List (String × MediaTypeObject) :=
  let c0 := c.getD []
  if c0.isEmpty then defaultContent else c0

/-- The `for (const type in content)` matching loop: return the first declared
entry whose pattern matches the request content type under `isf`, together
with the string `isf` returned (the source's `matchedMediaType`). -/
def findMatch (isf : String → String → Option String) (ct : String) :
    List (String × MediaTypeObject) →
    Option (String × Option JsVal × String)
  | [] => none
  | (type, mto) :: rest =>
    match isf ct type with
    | some m => some (type, mto.schema, m)
    | none => findMatch isf ct rest

/-- JavaScript `Array.prototype.toString` on a string array: elements joined
by commas (what `[${Object.keys(content)}]` interpolates). -/
def joinComma : List String → String
  | [] => ""
  | [s] => s
  | s :: rest => s ++ "," ++ joinComma rest

/-- The error thrown for a `$ref` request body: a plain `Error` (no
`statusCode` property). -/
def refNotSupportedError : HttpErr :=
  { statusCode := none, message := "$ref requestBody is not supported yet." }

/-- The `UnsupportedMediaType` (415) error thrown when no declared pattern
matches the request content type. -/
def noMatchError (ct : String) (keys : List String) : HttpErr :=
  { statusCode := some 415,
    message := "Content-type " ++ ct ++ " does not match [" ++
      joinComma keys ++ "]." }

/-- The `UnsupportedMediaType` (415) error thrown when no registry entry
supports the matched media type. -/
def notSupportedError (mt : String) : HttpErr :=
  { statusCode := some 415,
    message := "Content-type " ++ mt ++ " is not supported." }

/-- The `for (const parser of this.parsers)` loop body, instrumented with the
current index: skip entries whose `supports` is false, propagate a throwing
`supports`, invoke the first supporting entry's `parse` and stop. Returns the
raw loop outcome (`none` = fell through) and the indices of entries whose
`parse` was invoked. -/
def tryParsers (req : Request) (mt : String) (i : Nat) :
    List BodyParser → Except HttpErr (Option RequestBody) × List Nat
  | [] => (.ok none, [])
  | p :: rest =>
    match p.supports mt with
    | .error e => (.error e, [])
    | .ok false => tryParsers req mt (i + 1) rest
    | .ok true =>
      match p.parse req with
      | .error e => (.error e, [i])
      | .ok body => (.ok (some body), [i])

/-- Model of `loadRequestBodyIfNeeded(operationSpec, request)` over a registry
`parsers` (the constructor-built `this.parsers`) and the external matcher
`isf`. The second component lists the indices of parser entries whose `parse`
was invoked during the call. -/
def loadRequestBodyIfNeeded (isf : String → String → Option String)
    (parsers : List BodyParser) (spec : OperationObject) (req : Request) :
    Except HttpErr RequestBody × List Nat :=
  match spec.requestBody with
  | none => (.ok emptyBody, [])
  | some (.reference _) => (.error refNotSupportedError, [])
  | some (.body c) =>
    let contentType := req.contentType.getD "application/json"
    let content := effectiveContent c
    match findMatch isf contentType content with
    | none =>
      (.error (noMatchError contentType (content.map Prod.fst)), [])
    | some (type, sch, matched) =>
      match tryParsers req matched 0 parsers with
      | (.error e, calls) => (.error (normalizeParsingError e), calls)
      | (.ok none, calls) => (.error (notSupportedError matched), calls)
      | (.ok (some body), calls) =>
        let recorded : RequestBody :=
          { value := none, coercionRequired := none,
            mediaType := some type, schema := sch }
        (.ok (mergeBody recorded body), calls)

end LoopbackBodyParser

namespace LoopbackBodyParser

/-! ### Concrete sample data shared by witnesses and counterexamples -/

/-- Options with a shared `limit` and a conflicting json-specific `limit`. -/
def c1Options : JsObj :=
  [("limit", .str "2mb"), ("json", .obj [("limit", .str "5mb")])]

/-- Options with only a json-specific `limit`. -/
def c1SubOnly : JsObj := [("json", .obj [("limit", .str "5mb")])]

/-! ### C1: option precedence -/

/-- C1 (amended): the effective options of each built-in format are computed
with precedence shared/top-level options over format-specific sub-options
over hard-coded defaults (for keys other than the stripped names
`json`/`urlencoded`/`text`): (1) a key present at top level takes its
top-level value, even when the format sub-object also has it; (2) a key
absent at top level but present in the format sub-object takes the
sub-object value; (3) a key present in neither falls back to the hard-coded
defaults (`type`/`limit`, plus `extended` for urlencoded). -/
theorem c1_option_precedence (t : BuiltinFormat) (options : JsObj)
    (k : String) (hk1 : k ≠ "json") (hk2 : k ≠ "urlencoded")
    (hk3 : k ≠ "text") :
    (∀ v, getProp options k = some v → effectiveOptions t options k = some v)
    ∧ (∀ sub v, getProp options k = none →
        getProp options t.key = some (.obj sub) → getProp sub k = some v →
        effectiveOptions t options k = some v)
    ∧ (getProp options k = none →
        (∀ sub, getProp options t.key = some (.obj sub) →
          getProp sub k = none) →
        effectiveOptions t options k = getProp (formatDefaults t) k) := by
  have hif : (k == "json" || k == "urlencoded" || k == "text") = false := by
    simp [hk1, hk2, hk3]
  refine ⟨?_, ?_, ?_⟩
  · intro v hv
    simp [effectiveOptions, getParserOptions, hif, hv]
  · intro sub v hnone hsub hv
    simp [effectiveOptions, getParserOptions, hif, hnone, hsub, hv]
  · intro hnone hsub
    simp only [effectiveOptions, getParserOptions, hif, Bool.false_eq_true,
      if_false, hnone]
    cases hopt : getProp options t.key with
    | none => rfl
    | some v =>
      cases v with
      | str s => rfl
      | bool b => rfl
      | obj sub => simp [hsub sub hopt]

/-- Witness for C1: each precedence layer exercised at concrete inputs. -/
theorem c1_option_precedence_witness :
    effectiveOptions .json c1Options "limit" = some (.str "2mb")
    ∧ effectiveOptions .json c1SubOnly "limit" = some (.str "5mb")
    ∧ effectiveOptions .json [] "limit" = some (.str "1mb") := by
  refine ⟨?_, ?_, ?_⟩
  · exact (c1_option_precedence .json c1Options "limit" (by decide)
      (by decide) (by decide)).1 (.str "2mb") rfl
  · exact (c1_option_precedence .json c1SubOnly "limit" (by decide)
      (by decide) (by decide)).2.1 [("limit", .str "5mb")] (.str "5mb")
      rfl rfl rfl
  · exact (c1_option_precedence .json [] "limit" (by decide) (by decide)
      (by decide)).2.2 rfl (by intro sub h; cases h)

/-- C1 counterexample: with a shared `limit` of `2mb` and a json-specific
`limit` of `5mb`, the effective json options carry `2mb` — the shared value
wins, not the format-specific one as the claim states. -/
theorem c1_counterexample :
    getProp c1Options "limit" = some (.str "2mb")
    ∧ getProp c1Options "json" = some (.obj [("limit", .str "5mb")])
    ∧ effectiveOptions .json c1Options "limit" = some (.str "2mb")
    ∧ effectiveOptions .json c1Options "limit" ≠ some (.str "5mb") := by
  refine ⟨rfl, rfl, rfl, ?_⟩
  intro h
  rw [show effectiveOptions .json c1Options "limit" = some (.str "2mb")
    from rfl] at h
  injection h with h1
  injection h1 with h2
  exact absurd h2 (by decide)

/-! ### C3: parsing-error normalization -/

/-- C3: `normalizeParsingError` keeps a status code in 400..499 unchanged,
replaces an absent or `>= 500` status code with 400, and never yields a
status code `>= 500`. -/
theorem c3_normalize_status (err : HttpErr) :
    (∀ n, err.statusCode = some n → 400 ≤ n → n ≤ 499 →
      (normalizeParsingError err).statusCode = some n)
    ∧ (err.statusCode = none →
      (normalizeParsingError err).statusCode = some 400)
    ∧ (∀ n, err.statusCode = some n → 500 ≤ n →
      (normalizeParsingError err).statusCode = some 400)
    ∧ (∀ n, (normalizeParsingError err).statusCode = some n → n < 500) := by
  refine ⟨?_, ?_, ?_, ?_⟩
  · intro n hn h4 h5
    have hne : ¬(n = 0) := by omega
    have hge : ¬(500 ≤ n) := by omega
    simp [normalizeParsingError, hn, hne, hge]
  · intro hn
    simp [normalizeParsingError, hn]
  · intro n hn hge
    simp [normalizeParsingError, hn, hge]
  · intro n hn
    by_cases hc : (err.statusCode.getD 0 == 0 ||
        500 ≤ err.statusCode.getD 0 : Bool) = true
    · rw [normalizeParsingError, if_pos hc] at hn
      simp at hn
      omega
    · rw [normalizeParsingError, if_neg hc] at hn
      simp [Bool.or_eq_true, decide_eq_true_eq] at hc
      cases hsc : err.statusCode with
      | none => rw [hsc] at hn; cases hn
      | some m =>
        rw [hsc] at hn
        injection hn with hmn
        rw [hsc] at hc
        simp at hc
        omega

/-- Witness for C3: a 422 error is preserved, an absent status and a 500
status both become 400, and the results are below 500. -/
theorem c3_normalize_status_witness :
    (normalizeParsingError { statusCode := some 422, message := "bad" }
      ).statusCode = some 422
    ∧ (normalizeParsingError { statusCode := none, message := "bad" }
      ).statusCode = some 400
    ∧ (normalizeParsingError { statusCode := some 503, message := "bad" }
      ).statusCode = some 400
    ∧ 422 < 500 := by
  refine ⟨?_, ?_, ?_, ?_⟩
  · exact (c3_normalize_status { statusCode := some 422, message := "bad" }
      ).1 422 rfl (by decide) (by decide)
  · exact (c3_normalize_status { statusCode := none, message := "bad" }
      ).2.1 rfl
  · exact (c3_normalize_status { statusCode := some 503, message := "bad" }
      ).2.2.1 503 rfl (by decide)
  · exact (c3_normalize_status { statusCode := some 422, message := "bad" }
      ).2.2.2 422 ((c3_normalize_status
        { statusCode := some 422, message := "bad" }).1 422 rfl (by decide)
        (by decide))

end LoopbackBodyParser

namespace LoopbackBodyParser

/-! ### Helper lemmas about the parser-selection loop -/

/-- The instrumented loop invokes at most one entry's `parse`. -/
theorem tryParsers_calls_length (req : Request) (mt : String) (i : Nat)
    (ps : List BodyParser) : (tryParsers req mt i ps).2.length ≤ 1 := by
  induction ps generalizing i with
  | nil => simp [tryParsers]
  | cons p rest ih =>
    simp only [tryParsers]
    cases hs : p.supports mt with
    | error e => simp
    | ok b =>
      cases b with
      | false => exact ih (i + 1)
      | true => cases hp : p.parse req <;> simp

/-- Entries whose `supports` answers false are skipped. -/
theorem tryParsers_append (req : Request) (mt : String) (i : Nat)
    (ps : List BodyParser) (rest : List BodyParser)
    (h : ∀ q ∈ ps, q.supports mt = .ok false) :
    tryParsers req mt i (ps ++ rest) =
      tryParsers req mt (i + ps.length) rest := by
  induction ps generalizing i with
  | nil => simp
  | cons p tl ih =>
    simp only [List.cons_append, tryParsers, List.append_eq, h p (by simp)]
    rw [ih (i + 1) (fun q hq => h q (by simp [hq]))]
    congr 1
    simp only [List.length_cons]
    omega

/-- The first entry whose `supports` answers true is invoked and the loop
stops with its outcome. -/
theorem tryParsers_found (req : Request) (mt : String) (i : Nat)
    (p : BodyParser) (rest : List BodyParser)
    (hs : p.supports mt = .ok true) :
    tryParsers req mt i (p :: rest) =
      match p.parse req with
      | .error e => (.error e, [i])
      | .ok body => (.ok (some body), [i]) := by
  simp only [tryParsers, hs]

/-- A throwing `supports` aborts the loop with that error, no parse
invoked. -/
theorem tryParsers_supports_throw (req : Request) (mt : String) (i : Nat)
    (p : BodyParser) (rest : List BodyParser) (e : HttpErr)
    (hs : p.supports mt = .error e) :
    tryParsers req mt i (p :: rest) = (.error e, []) := by
  simp only [tryParsers, hs]

/-- If no entry supports the media type, the loop falls through with no
parse invoked. -/
theorem tryParsers_all_false (req : Request) (mt : String) (i : Nat)
    (ps : List BodyParser) (h : ∀ q ∈ ps, q.supports mt = .ok false) :
    tryParsers req mt i ps = (.ok none, []) := by
  induction ps generalizing i with
  | nil => rfl
  | cons p tl ih =>
    simp only [tryParsers, h p (by simp)]
    exact ih (i + 1) (fun q hq => h q (by simp [hq]))

/-! ### Helper lemmas about the orchestrator's control flow -/

/-- When a declared media type matched, the orchestrator's outcome is that of
the parser-selection loop run on the matched type, with errors normalized,
fall-through turned into the 415 error, and a parse result merged into the
result holding the recorded media type and schema. -/
theorem load_body_match (isf : String → String → Option String)
    (parsers : List BodyParser)
    (c : Option (List (String × MediaTypeObject))) (req : Request)
    (type : String) (sch : Option JsVal) (matched : String)
    (hm : findMatch isf (req.contentType.getD "application/json")
      (effectiveContent c) = some (type, sch, matched)) :
    loadRequestBodyIfNeeded isf parsers
        { requestBody := some (.body c) } req =
      match tryParsers req matched 0 parsers with
      | (.error e, calls) => (.error (normalizeParsingError e), calls)
      | (.ok none, calls) => (.error (notSupportedError matched), calls)
      | (.ok (some body), calls) =>
        (.ok (mergeBody
          { value := none, coercionRequired := none,
            mediaType := some type, schema := sch } body), calls) := by
  simp only [loadRequestBodyIfNeeded, hm]

/-- When no declared media type matches, the orchestrator fails with the
415 no-match error and invokes no parser. -/
theorem load_no_match (isf : String → String → Option String)
    (parsers : List BodyParser)
    (c : Option (List (String × MediaTypeObject))) (req : Request)
    (hm : findMatch isf (req.contentType.getD "application/json")
      (effectiveContent c) = none) :
    loadRequestBodyIfNeeded isf parsers
        { requestBody := some (.body c) } req =
      (.error (noMatchError (req.contentType.getD "application/json")
        ((effectiveContent c).map Prod.fst)), []) := by
  simp only [loadRequestBodyIfNeeded, hm]

/-- The matching loop finds no entry when the matcher rejects every declared
pattern. -/
theorem findMatch_none (isf : String → String → Option String) (ct : String)
    (l : List (String × MediaTypeObject))
    (h : ∀ x ∈ l, isf ct x.1 = none) : findMatch isf ct l = none := by
  induction l with
  | nil => rfl
  | cons hd tl ih =>
    obtain ⟨type, mto⟩ := hd
    simp only [findMatch, h ⟨type, mto⟩ (by simp)]
    exact ih (fun x hx => h x (by simp [hx]))

/-- Normalization never changes the error message. -/
theorem normalize_message (e : HttpErr) :
    (normalizeParsingError e).message = e.message := by
  unfold normalizeParsingError
  split <;> rfl

/-- Every member of a comma-joined list occurs contiguously in the joined
string. -/
theorem joinComma_mem (p : String) (l : List String) (h : p ∈ l) :
    ∃ u v : List Char, (joinComma l).data = u ++ p.data ++ v := by
  induction l with
  | nil => cases h
  | cons s tl ih =>
    cases tl with
    | nil =>
      rcases List.mem_cons.mp h with rfl | h
      · exact ⟨[], [], by simp [joinComma]⟩
      · simp at h
    | cons s2 tl2 =>
      rcases List.mem_cons.mp h with rfl | h
      · refine ⟨[], ("," ++ joinComma (s2 :: tl2)).data, ?_⟩
        simp [joinComma, String.data_append]
      · obtain ⟨u, v, hu⟩ := ih h
        refine ⟨(s ++ ",").data ++ u, v, ?_⟩
        simp [joinComma, String.data_append, hu]

end LoopbackBodyParser

namespace LoopbackBodyParser

/-! ### Concrete instances used by witnesses -/

/-- An exact-equality matcher standing in for type-is in concrete runs. -/
def exactIs : String → String → Option String :=
  fun ct p => if ct == p then some ct else none

/-- A request declaring `application/json`. -/
def jsonReq : Request := { contentType := some "application/json" }

/-- A one-entry declared content map for `application/json`. -/
def jsonContent : List (String × MediaTypeObject) :=
  [("application/json", { schema := some (.obj [("type", .str "object")]) })]

/-- A registry entry accepting every media type and returning a fixed body. -/
def alwaysEntry (rb : RequestBody) : BodyParser :=
  { name := some "custom",
    supports := fun _ => .ok true,
    parse := fun _ => .ok rb }

/-- A registry entry rejecting every media type. -/
def neverEntry : BodyParser :=
  { name := some "never",
    supports := fun _ => .ok false,
    parse := fun _ => .error { statusCode := none, message := "unreachable" } }

/-- A registry entry accepting every media type and failing to parse. -/
def failingEntry (e : HttpErr) : BodyParser :=
  { name := some "failing",
    supports := fun _ => .ok true,
    parse := fun _ => .error e }

/-- A registry entry whose capability check itself throws. -/
def throwingSupportsEntry (e : HttpErr) : BodyParser :=
  { name := some "throwing",
    supports := fun _ => .error e,
    parse := fun _ => .ok emptyBody }

/-! ### C5: at most one parse invocation -/

/-- C5: on every request-body-load call, at most one registry entry's `parse`
is invoked; and when the selected entry's parse fails, the run's outcome is
that failure normalized, with the failing entry as the sole invocation — no
other entry is retried. -/
theorem c5_at_most_one_parse (isf : String → String → Option String)
    (parsers : List BodyParser) (spec : OperationObject) (req : Request) :
    (loadRequestBodyIfNeeded isf parsers spec req).2.length ≤ 1
    ∧ (∀ c type sch matched ps₁ ps₂ (p : BodyParser) (e : HttpErr),
        spec = { requestBody := some (.body c) } →
        findMatch isf (req.contentType.getD "application/json")
          (effectiveContent c) = some (type, sch, matched) →
        parsers = ps₁ ++ p :: ps₂ →
        (∀ q ∈ ps₁, q.supports matched = .ok false) →
        p.supports matched = .ok true →
        p.parse req = .error e →
        loadRequestBodyIfNeeded isf parsers spec req =
          (.error (normalizeParsingError e), [ps₁.length])) := by
  refine ⟨?_, ?_⟩
  case refine_2 =>
    intro c type sch matched ps₁ ps₂ p e hspec hm hreg hskip hsup hparse
    subst hspec
    rw [hreg, load_body_match isf (ps₁ ++ p :: ps₂) c req type sch matched hm,
      tryParsers_append req matched 0 ps₁ (p :: ps₂) hskip,
      tryParsers_found req matched (0 + ps₁.length) p ps₂ hsup, hparse]
    simp
  obtain ⟨rb⟩ := spec
  cases rb with
  | none => simp [loadRequestBodyIfNeeded]
  | some rbo =>
    cases rbo with
    | reference r => simp [loadRequestBodyIfNeeded]
    | body c =>
      cases hm : findMatch isf (req.contentType.getD "application/json")
          (effectiveContent c) with
      | none => rw [load_no_match isf parsers c req hm]; simp
      | some trip =>
        obtain ⟨type, sch, matched⟩ := trip
        rw [load_body_match isf parsers c req type sch matched hm]
        have h := tryParsers_calls_length req matched 0 parsers
        rcases htp : tryParsers req matched 0 parsers with ⟨res, calls⟩
        rw [htp] at h
        cases res with
        | error e => simpa using h
        | ok ob => cases ob <;> simpa using h

/-! ### C8: empty content map defaults -/

/-- C8: with an empty (or absent) declared content map, resolution behaves
exactly as with the synthesized default map of `application/json` and
`application/x-www-form-urlencoded`, each with schema `{type: 'object'}` —
the whole outcome (matching, recorded schema, parser selection, invocation
trace) coincides. -/
theorem c8_empty_content_defaults (isf : String → String → Option String)
    (parsers : List BodyParser) (req : Request) :
    loadRequestBodyIfNeeded isf parsers
        { requestBody := some (.body (some [])) } req =
      loadRequestBodyIfNeeded isf parsers
        { requestBody := some (.body (some defaultContent)) } req
    ∧ loadRequestBodyIfNeeded isf parsers
        { requestBody := some (.body none) } req =
      loadRequestBodyIfNeeded isf parsers
        { requestBody := some (.body (some defaultContent)) } req
    ∧ defaultContent =
      [ ("application/json",
          { schema := some (.obj [("type", .str "object")]) }),
        ("application/x-www-form-urlencoded",
          { schema := some (.obj [("type", .str "object")]) }) ] :=
  ⟨rfl, rfl, rfl⟩

/-! ### C9: unresolved reference rejected -/

/-- C9: an operation spec whose request body is a `$ref` reference is
rejected immediately with the hard error (a plain `Error`, no status code),
for every matcher and registry, with no parser invoked. -/
theorem c9_ref_rejected (isf : String → String → Option String)
    (parsers : List BodyParser) (req : Request) (r : String) :
    loadRequestBodyIfNeeded isf parsers
        { requestBody := some (.reference r) } req =
      (.error refNotSupportedError, [])
    ∧ refNotSupportedError.statusCode = none
    ∧ refNotSupportedError.message = "$ref requestBody is not supported yet." :=
  ⟨rfl, rfl, rfl⟩

end LoopbackBodyParser

namespace LoopbackBodyParser

/-! ### C6: 415 when no declared pattern matches -/

/-- C6: when the (possibly defaulted) request content type matches none of
the effective declared patterns, resolution fails with the 415 error whose
message contains the content type and every declared pattern, and no parser
entry is invoked. -/
theorem c6_no_declared_match (isf : String → String → Option String)
    (parsers : List BodyParser)
    (c : Option (List (String × MediaTypeObject))) (req : Request)
    (h : ∀ x ∈ effectiveContent c,
      isf (req.contentType.getD "application/json") x.1 = none) :
    loadRequestBodyIfNeeded isf parsers
        { requestBody := some (.body c) } req =
      (.error (noMatchError (req.contentType.getD "application/json")
        ((effectiveContent c).map Prod.fst)), [])
    ∧ (noMatchError (req.contentType.getD "application/json")
        ((effectiveContent c).map Prod.fst)).statusCode = some 415
    ∧ (∃ u v : List Char,
        (noMatchError (req.contentType.getD "application/json")
          ((effectiveContent c).map Prod.fst)).message.data =
          u ++ (req.contentType.getD "application/json").data ++ v)
    ∧ (∀ pat ∈ (effectiveContent c).map Prod.fst, ∃ u v : List Char,
        (noMatchError (req.contentType.getD "application/json")
          ((effectiveContent c).map Prod.fst)).message.data =
          u ++ pat.data ++ v) := by
  refine ⟨?_, rfl, ?_, ?_⟩
  · exact load_no_match isf parsers c req
      (findMatch_none isf (req.contentType.getD "application/json")
        (effectiveContent c) h)
  · refine ⟨"Content-type ".data,
      (" does not match [" ++
        joinComma ((effectiveContent c).map Prod.fst) ++ "].").data, ?_⟩
    simp [noMatchError, String.data_append, List.append_assoc]
  · intro pat hpat
    obtain ⟨u, v, hu⟩ :=
      joinComma_mem pat ((effectiveContent c).map Prod.fst) hpat
    refine ⟨("Content-type " ++ (req.contentType.getD "application/json") ++
        " does not match [").data ++ u, v ++ "].".data, ?_⟩
    simp [noMatchError, String.data_append, hu, List.append_assoc]

/-- Witness for C6: a `text/html` request against a json-only content map
fails with the 415 no-match error and an empty invocation trace. -/
theorem c6_no_declared_match_witness :
    loadRequestBodyIfNeeded exactIs []
        { requestBody := some (.body (some jsonContent)) }
        { contentType := some "text/html" } =
      (.error (noMatchError "text/html" ["application/json"]), []) := by
  have h := c6_no_declared_match exactIs [] (some jsonContent)
    { contentType := some "text/html" }
    (by
      intro x hx
      simp only [effectiveContent, jsonContent, List.isEmpty_cons,
        Option.getD_some, if_false, Bool.false_eq_true] at hx
      rcases List.mem_singleton.mp hx with rfl
      rfl)
  exact h.1

/-! ### C7: 415 when no parser supports the matched type -/

/-- C7: when a declared pattern matched but no registry entry supports the
matched media type, resolution fails with the 415 error whose message is
exactly the one naming the matched type (not the declared list), and no
parser entry is invoked. -/
theorem c7_no_capable_entry (isf : String → String → Option String)
    (parsers : List BodyParser)
    (c : Option (List (String × MediaTypeObject))) (req : Request)
    (type : String) (sch : Option JsVal) (matched : String)
    (hm : findMatch isf (req.contentType.getD "application/json")
      (effectiveContent c) = some (type, sch, matched))
    (hp : ∀ q ∈ parsers, q.supports matched = .ok false) :
    loadRequestBodyIfNeeded isf parsers
        { requestBody := some (.body c) } req =
      (.error (notSupportedError matched), [])
    ∧ (notSupportedError matched).statusCode = some 415
    ∧ (notSupportedError matched).message =
      "Content-type " ++ matched ++ " is not supported."
    ∧ (∃ u v : List Char, (notSupportedError matched).message.data =
        u ++ matched.data ++ v) := by
  refine ⟨?_, rfl, rfl, ?_⟩
  · rw [load_body_match isf parsers c req type sch matched hm,
      tryParsers_all_false req matched 0 parsers hp]
  · exact ⟨"Content-type ".data, " is not supported.".data,
      by simp [notSupportedError, String.data_append, List.append_assoc]⟩

/-- Witness for C7: a matched json request with a registry holding one
rejecting entry fails with the 415 matched-type error. -/
theorem c7_no_capable_entry_witness :
    loadRequestBodyIfNeeded exactIs [neverEntry]
        { requestBody := some (.body (some jsonContent)) } jsonReq =
      (.error (notSupportedError "application/json"), []) := by
  have h := c7_no_capable_entry exactIs [neverEntry] (some jsonContent)
    jsonReq "application/json" (some (.obj [("type", .str "object")]))
    "application/json" rfl
    (by
      intro q hq
      rcases List.mem_singleton.mp hq with rfl
      rfl)
  exact h.1

end LoopbackBodyParser

namespace LoopbackBodyParser

/-! ### C4: extension entries take priority -/

/-- C4: the constructor-built registry is the extension entries followed by
the built-in json, urlencoded and text entries, and selection invokes the
first entry in registration order whose `supports` answers true: its index
is the sole invocation, and the call's outcome is that entry's parse result
(merged, or its error normalized). An extension entry claiming the matched
type is therefore invoked instead of any built-in. -/
theorem c4_extension_priority
    (extensions ps₁ ps₂ : List BodyParser) (p : BodyParser)
    (isf : String → String → Option String)
    (jsonP urlP textP : Request → Except HttpErr JsVal)
    (c : Option (List (String × MediaTypeObject))) (req : Request)
    (type : String) (sch : Option JsVal) (matched : String)
    (hm : findMatch isf (req.contentType.getD "application/json")
      (effectiveContent c) = some (type, sch, matched))
    (hreg : buildParsers extensions isf jsonP urlP textP = ps₁ ++ p :: ps₂)
    (hskip : ∀ q ∈ ps₁, q.supports matched = .ok false)
    (hsup : p.supports matched = .ok true) :
    buildParsers extensions isf jsonP urlP textP =
      extensions ++ builtinEntries isf jsonP urlP textP
    ∧ (loadRequestBodyIfNeeded isf
        (buildParsers extensions isf jsonP urlP textP)
        { requestBody := some (.body c) } req).2 = [ps₁.length]
    ∧ (loadRequestBodyIfNeeded isf
        (buildParsers extensions isf jsonP urlP textP)
        { requestBody := some (.body c) } req).1 =
      (match p.parse req with
       | .error e => .error (normalizeParsingError e)
       | .ok body => .ok (mergeBody
          { value := none, coercionRequired := none,
            mediaType := some type, schema := sch } body)) := by
  refine ⟨rfl, ?_, ?_⟩
  · rw [hreg, load_body_match isf (ps₁ ++ p :: ps₂) c req type sch matched hm,
      tryParsers_append req matched 0 ps₁ (p :: ps₂) hskip,
      tryParsers_found req matched (0 + ps₁.length) p ps₂ hsup]
    cases hp : p.parse req <;> simp
  · rw [hreg, load_body_match isf (ps₁ ++ p :: ps₂) c req type sch matched hm,
      tryParsers_append req matched 0 ps₁ (p :: ps₂) hskip,
      tryParsers_found req matched (0 + ps₁.length) p ps₂ hsup]
    cases hp : p.parse req <;> simp

/-- Witness for C4: a custom entry claiming every type, placed ahead of the
built-ins, is the invoked entry (index 0) and its body is the result. -/
theorem c4_extension_priority_witness :
    (loadRequestBodyIfNeeded exactIs
        (buildParsers [alwaysEntry
          { value := some (.str "custom"), coercionRequired := none,
            mediaType := none, schema := none }] exactIs
          (fun _ => .ok (.str "b")) (fun _ => .ok (.str "b"))
          (fun _ => .ok (.str "b")))
        { requestBody := some (.body (some jsonContent)) } jsonReq).2 = [0]
    ∧ (loadRequestBodyIfNeeded exactIs
        (buildParsers [alwaysEntry
          { value := some (.str "custom"), coercionRequired := none,
            mediaType := none, schema := none }] exactIs
          (fun _ => .ok (.str "b")) (fun _ => .ok (.str "b"))
          (fun _ => .ok (.str "b")))
        { requestBody := some (.body (some jsonContent)) } jsonReq).1 =
      .ok { value := some (.str "custom"), coercionRequired := none,
            mediaType := some "application/json",
            schema := some (.obj [("type", .str "object")]) } := by
  have h := c4_extension_priority
    [alwaysEntry
      { value := some (.str "custom"), coercionRequired := none,
        mediaType := none, schema := none }]
    []
    (builtinEntries exactIs (fun _ => .ok (.str "b"))
      (fun _ => .ok (.str "b")) (fun _ => .ok (.str "b")))
    (alwaysEntry
      { value := some (.str "custom"), coercionRequired := none,
        mediaType := none, schema := none })
    exactIs (fun _ => .ok (.str "b")) (fun _ => .ok (.str "b"))
    (fun _ => .ok (.str "b")) (some jsonContent) jsonReq
    "application/json" (some (.obj [("type", .str "object")]))
    "application/json" rfl rfl
    (by intro q hq; simp at hq) rfl
  refine ⟨?_, ?_⟩
  · rw [h.2.1]
    rfl
  · rw [h.2.2]
    rfl

/-! ### C10: throwing capability check is normalized -/

/-- C10: when the first considered entry's `supports` throws, the loop
aborts, the error is passed through the parsing-error normalizer and
surfaced (message unchanged, status set to 400 when absent or at least 500,
kept when 400..499), no parse is invoked, and the outcome is not the 415
unsupported-media-type failure but the normalized thrown error. -/
theorem c10_supports_error_normalized
    (isf : String → String → Option String)
    (parsers ps₁ ps₂ : List BodyParser) (p : BodyParser)
    (c : Option (List (String × MediaTypeObject))) (req : Request)
    (type : String) (sch : Option JsVal) (matched : String) (e : HttpErr)
    (hm : findMatch isf (req.contentType.getD "application/json")
      (effectiveContent c) = some (type, sch, matched))
    (hreg : parsers = ps₁ ++ p :: ps₂)
    (hskip : ∀ q ∈ ps₁, q.supports matched = .ok false)
    (hthrow : p.supports matched = .error e) :
    loadRequestBodyIfNeeded isf parsers
        { requestBody := some (.body c) } req =
      (.error (normalizeParsingError e), [])
    ∧ (normalizeParsingError e).message = e.message
    ∧ (e.statusCode = none → (normalizeParsingError e).statusCode = some 400)
    ∧ (∀ n, e.statusCode = some n → 500 ≤ n →
        (normalizeParsingError e).statusCode = some 400)
    ∧ (∀ n, e.statusCode = some n → 400 ≤ n → n ≤ 499 →
        (normalizeParsingError e).statusCode = some n) := by
  refine ⟨?_, normalize_message e, ?_, ?_, ?_⟩
  · rw [hreg, load_body_match isf (ps₁ ++ p :: ps₂) c req type sch matched hm,
      tryParsers_append req matched 0 ps₁ (p :: ps₂) hskip,
      tryParsers_supports_throw req matched (0 + ps₁.length) p ps₂ e hthrow]
  · intro hn; simp [normalizeParsingError, hn]
  · intro n hn hge; simp [normalizeParsingError, hn, hge]
  · intro n hn h4 h5
    have hne : ¬(n = 0) := by omega
    have hge : ¬(500 ≤ n) := by omega
    simp [normalizeParsingError, hn, hne, hge]

/-- Witness for C10: an entry whose `supports` throws a 503 error yields the
same error with status 400 and message intact, no parse invoked. -/
theorem c10_supports_error_normalized_witness :
    loadRequestBodyIfNeeded exactIs
        [throwingSupportsEntry { statusCode := some 503, message := "boom" }]
        { requestBody := some (.body (some jsonContent)) } jsonReq =
      (.error { statusCode := some 400, message := "boom" }, []) := by
  have h := c10_supports_error_normalized exactIs
    [throwingSupportsEntry { statusCode := some 503, message := "boom" }]
    [] []
    (throwingSupportsEntry { statusCode := some 503, message := "boom" })
    (some jsonContent) jsonReq "application/json"
    (some (.obj [("type", .str "object")])) "application/json"
    { statusCode := some 503, message := "boom" } rfl rfl
    (by intro q hq; simp at hq) rfl
  rw [h.1]
  rfl

/-! ### C2: merge semantics for the parse result -/

/-- C2 (amended): when a parser entry is selected and returns a body, the
outcome is `Object.assign` of the parse result over the result object that
recorded the matched media type and schema: `value` is taken from the parse
result, and `mediaType`/`schema` recorded during matching are preserved
exactly when the parse result does not itself carry those fields — a field
present in the parse result overwrites them. The built-in parsers never
carry `mediaType` or `schema` in their results, so for them the recorded
fields are always preserved. -/
theorem c2_merge_overwrites
    (isf : String → String → Option String)
    (parsers ps₁ ps₂ : List BodyParser) (p : BodyParser)
    (c : Option (List (String × MediaTypeObject))) (req : Request)
    (type : String) (sch : Option JsVal) (matched : String)
    (body : RequestBody)
    (hm : findMatch isf (req.contentType.getD "application/json")
      (effectiveContent c) = some (type, sch, matched))
    (hreg : parsers = ps₁ ++ p :: ps₂)
    (hskip : ∀ q ∈ ps₁, q.supports matched = .ok false)
    (hsup : p.supports matched = .ok true)
    (hparse : p.parse req = .ok body) :
    (loadRequestBodyIfNeeded isf parsers
        { requestBody := some (.body c) } req).1 =
      .ok (mergeBody
        { value := none, coercionRequired := none,
          mediaType := some type, schema := sch } body)
    ∧ (mergeBody
        { value := none, coercionRequired := none,
          mediaType := some type, schema := sch } body).value = body.value
    ∧ (body.mediaType = none →
        (mergeBody
          { value := none, coercionRequired := none,
            mediaType := some type, schema := sch } body).mediaType =
          some type)
    ∧ (∀ m, body.mediaType = some m →
        (mergeBody
          { value := none, coercionRequired := none,
            mediaType := some type, schema := sch } body).mediaType = some m)
    ∧ (body.schema = none →
        (mergeBody
          { value := none, coercionRequired := none,
            mediaType := some type, schema := sch } body).schema = sch)
    ∧ (∀ s, body.schema = some s →
        (mergeBody
          { value := none, coercionRequired := none,
            mediaType := some type, schema := sch } body).schema = some s)
    ∧ (∀ f r b, parseJsonBody f r = .ok b →
        b.mediaType = none ∧ b.schema = none)
    ∧ (∀ f r b, parseUrlencodedBody f r = .ok b →
        b.mediaType = none ∧ b.schema = none)
    ∧ (∀ f r b, parseTextBody f r = .ok b →
        b.mediaType = none ∧ b.schema = none) := by
  refine ⟨?_, ?_, ?_, ?_, ?_, ?_, ?_, ?_, ?_⟩
  · rw [hreg, load_body_match isf (ps₁ ++ p :: ps₂) c req type sch matched hm,
      tryParsers_append req matched 0 ps₁ (p :: ps₂) hskip,
      tryParsers_found req matched (0 + ps₁.length) p ps₂ hsup, hparse]
  · cases hb : body.value <;> simp [mergeBody, hb, Option.orElse]
  · intro hb; simp [mergeBody, hb, Option.orElse]
  · intro m hb; simp [mergeBody, hb, Option.orElse]
  · intro hb; cases sch <;> simp [mergeBody, hb, Option.orElse]
  · intro s hb; simp [mergeBody, hb, Option.orElse]
  · intro f r b hb
    unfold parseJsonBody at hb
    cases hf : f r with
    | error e => rw [hf] at hb; cases hb
    | ok v => rw [hf] at hb; injection hb with hb; rw [← hb]; exact ⟨rfl, rfl⟩
  · intro f r b hb
    unfold parseUrlencodedBody at hb
    cases hf : f r with
    | error e => rw [hf] at hb; cases hb
    | ok v => rw [hf] at hb; injection hb with hb; rw [← hb]; exact ⟨rfl, rfl⟩
  · intro f r b hb
    unfold parseTextBody at hb
    cases hf : f r with
    | error e => rw [hf] at hb; cases hb
    | ok v => rw [hf] at hb; injection hb with hb; rw [← hb]; exact ⟨rfl, rfl⟩

/-- Witness for C2: a custom entry returning only `value` yields a result
keeping the recorded media type and schema. -/
theorem c2_merge_overwrites_witness :
    (loadRequestBodyIfNeeded exactIs
        [alwaysEntry
          { value := some (.str "v"), coercionRequired := none,
            mediaType := none, schema := none }]
        { requestBody := some (.body (some jsonContent)) } jsonReq).1 =
      .ok { value := some (.str "v"), coercionRequired := none,
            mediaType := some "application/json",
            schema := some (.obj [("type", .str "object")]) } := by
  have h := c2_merge_overwrites exactIs
    [alwaysEntry
      { value := some (.str "v"), coercionRequired := none,
        mediaType := none, schema := none }]
    [] []
    (alwaysEntry
      { value := some (.str "v"), coercionRequired := none,
        mediaType := none, schema := none })
    (some jsonContent) jsonReq "application/json"
    (some (.obj [("type", .str "object")])) "application/json"
    { value := some (.str "v"), coercionRequired := none,
      mediaType := none, schema := none }
    rfl rfl (by intro q hq; simp at hq) rfl rfl
  rw [h.1]
  rfl

/-- C2 counterexample: an extension entry whose parse result itself carries
`mediaType` and `schema` fields overwrites the values recorded during type
matching, contradicting the claim that they are preserved for every entry. -/
theorem c2_counterexample :
    (loadRequestBodyIfNeeded exactIs
        [alwaysEntry
          { value := some (.str "x"), coercionRequired := none,
            mediaType := some "text/evil", schema := some (.str "evil") }]
        { requestBody := some (.body (some jsonContent)) } jsonReq).1 =
      .ok { value := some (.str "x"), coercionRequired := none,
            mediaType := some "text/evil", schema := some (.str "evil") }
    ∧ "text/evil" ≠ "application/json" := by
  exact ⟨rfl, by decide⟩

end LoopbackBodyParser

namespace LoopbackBodyParser

/-- Witness for C5: a failing entry is invoked once (index 0); its 422 error
is surfaced unchanged and no other entry is tried. -/
theorem c5_at_most_one_parse_witness :
    (loadRequestBodyIfNeeded exactIs
        [failingEntry { statusCode := some 422, message := "bad payload" }]
        { requestBody := some (.body (some jsonContent)) }
        jsonReq).2.length ≤ 1
    ∧ loadRequestBodyIfNeeded exactIs
        [failingEntry { statusCode := some 422, message := "bad payload" }]
        { requestBody := some (.body (some jsonContent)) } jsonReq =
      (.error { statusCode := some 422, message := "bad payload" }, [0]) := by
  have h := c5_at_most_one_parse exactIs
    [failingEntry { statusCode := some 422, message := "bad payload" }]
    { requestBody := some (.body (some jsonContent)) } jsonReq
  refine ⟨h.1, ?_⟩
  have h2 := h.2 (some jsonContent) "application/json"
    (some (.obj [("type", .str "object")])) "application/json" [] []
    (failingEntry { statusCode := some 422, message := "bad payload" })
    { statusCode := some 422, message := "bad payload" }
    rfl rfl rfl (by intro q hq; simp at hq) rfl rfl
  rw [h2]
  rfl

end LoopbackBodyParser
